import Mathlib

/-!
Shallow embedding of the `eventsource` Go package (stalexteam/eventsource_go):
the SSE frame encoder, the reconnecting client (`EventSource`) and the
server-side connection registry (`ConnectionManager`), together with proofs
about the specified behaviour.

Go byte slices and strings are modelled as lists of byte values (`Nat`s
below 256); the network and the stream decoder are modelled as oracle
inputs to the state-transition functions translated from the source.
-/

namespace EventSourceGo

/-- A Go byte, as a natural number (concrete inputs stay below 256). -/
abbrev Byte := Nat

/-- A Go byte slice / string, as a list of bytes. -/
abbrev Bytes := List Byte

/-- The error values of the package. Sentinel errors (`ErrClosed`,
`ErrConnectionFailed`, `ErrEmptyLine`, `ErrInvalidEncoding`,
`ErrEncoderClosed`, `ErrConnectionClosed`), the `fmt.Errorf` wrappers built
by `connect` and `Read`, the `io` sentinels the encoder inspects, and an
abstract net-timeout error (`netTimeout`: an error satisfying
`errors.As(err, &netErr) && netErr.Timeout()`) plus opaque other errors. -/
inductive Err where
  | closed
  | connectionFailed
  | emptyLine
  | invalidEncoding
  | encoderClosed
  | connectionClosed
  | eof
  | closedPipe
  | netTimeout
  | connAttemptFailed
  | temporaryServerError (status : Nat)
  | unrecoverableStatus (status : Nat)
  | invalidContentType
  | readTimeout (inner : Err)
  | otherErr (code : Nat)
deriving DecidableEq, Repr

/-- Result of a fallible operation returning a value of type `α`
(Go's `(α, error)` with exactly one of the two meaningful). -/
inductive Res (α : Type) where
  | ok (a : α)
  | err (e : Err)
deriving DecidableEq, Repr

/-- Whether a byte is a UTF-8 continuation byte (`0x80..0xBF`). -/
def isCont (b : Byte) : Bool := 0x80 ≤ b && b ≤ 0xBF

/-- Go's `utf8.Valid` / `utf8.ValidString` over a byte sequence: every rune
well-formed, no overlong encodings, no surrogates, nothing above U+10FFFF.
First-byte ranges follow Go's `unicode/utf8` acceptance table. -/
def utf8Valid : Bytes → Bool
  | [] => true
  | b0 :: rest =>
    if b0 < 0x80 then utf8Valid rest
    else if b0 < 0xC2 then false
    else if b0 ≤ 0xDF then
      match rest with
      | b1 :: rest1 => isCont b1 && utf8Valid rest1
      | [] => false
    else if b0 ≤ 0xEF then
      match rest with
      | b1 :: b2 :: rest2 =>
        (if b0 = 0xE0 then 0xA0 ≤ b1 && b1 ≤ 0xBF
         else if b0 = 0xED then 0x80 ≤ b1 && b1 ≤ 0x9F
         else isCont b1) && isCont b2 && utf8Valid rest2
      | _ => false
    else if b0 ≤ 0xF4 then
      match rest with
      | b1 :: b2 :: b3 :: rest3 =>
        (if b0 = 0xF0 then 0x90 ≤ b1 && b1 ≤ 0xBF
         else if b0 = 0xF4 then 0x80 ≤ b1 && b1 ≤ 0x8F
         else isCont b1) && isCont b2 && isCont b3 && utf8Valid rest3
      | _ => false
    else false

/-- Go's `bytes.Split(value, []byte{'\n'})`: the segments between newline
bytes; an empty input yields one empty segment. -/
def splitOnNL : Bytes → List Bytes
  | [] => [[]]
  | b :: rest =>
    if b = 10 then [] :: splitOnNL rest
    else
      match splitOnNL rest with
      | [] => [[b]]
      | l :: ls => (b :: l) :: ls

/-- Strip one trailing carriage return, as in
`if len(line) > 0 && line[len(line)-1] == '\r' { line = line[:len(line)-1] }`. -/
def stripCR (line : Bytes) : Bytes :=
  if line ≠ [] ∧ line.getLast? = some 13 then line.dropLast else line

/-- The bytes written by the unexported `writeField`:
`"field\n"` for an empty value, `"field: value\n"` otherwise. -/
def writeFieldRecord (field value : Bytes) : Bytes :=
  if value = [] then field ++ [10]
  else field ++ [58, 32] ++ value ++ [10]

/-- The loop body of `Encoder.WriteField`, translated with its running index
`i` and the total segment count `n`: an empty segment that is neither the
first nor the last is skipped (the skip test runs on the raw segment, before
carriage-return stripping); every other segment is stripped of one trailing
carriage return and written as one record. -/
def writeFieldGo (field : Bytes) : Nat → Nat → List Bytes → Bytes
  | _, _, [] => []
  | i, n, line :: rest =>
    (if line = [] ∧ 0 < i ∧ i < n - 1 then []
     else writeFieldRecord field (stripCR line)) ++ writeFieldGo field (i + 1) n rest

/-- `Encoder.WriteField(field, value)`: `ErrInvalidEncoding` when `field` or
`value` is not valid UTF-8; otherwise the concatenation of the records the
loop writes for the newline-separated segments of `value` (the sink itself
is infallible in this model, so no write error arises). -/
def WriteField (field value : Bytes) : Res Bytes :=
  if ¬ (utf8Valid field ∧ utf8Valid value) then .err .invalidEncoding
  else .ok (writeFieldGo field 0 (splitOnNL value).length (splitOnNL value))

/-- The field-name byte strings used by the encoder. -/
def idField : Bytes := [105, 100]

/-- The `retry` field name. -/
def retryField : Bytes := [114, 101, 116, 114, 121]

/-- The `event` field name. -/
def eventField : Bytes := [101, 118, 101, 110, 116]

/-- The `data` field name. -/
def dataField : Bytes := [100, 97, 116, 97]

/-- An SSE event (`Event` in the source). `typ` models the Go field `Type`
(a Lean keyword); Go strings are byte lists. -/
structure Event where
  typ : Bytes
  id : Bytes
  retry : Bytes
  data : Bytes
  resetID : Bool
deriving DecidableEq, Repr

/-- The observable state of an `Encoder`: its `closed` latch, the bytes
written to the underlying writer, how often the writer was flushed, and
whether `Close` closed the underlying writer. -/
structure Encoder where
  closed : Bool
  out : Bytes
  flushes : Nat
  wClosed : Bool
deriving DecidableEq, Repr

namespace Encoder

/-- `Encoder.Flush`: write one blank line, then flush the underlying sink. -/
def Flush (enc : Encoder) : Encoder :=
  { enc with out := enc.out ++ [10], flushes := enc.flushes + 1 }

/-- `Encoder.handleEncodeError`: an `io.EOF` or `io.ErrClosedPipe` write
failure latches `closed` and is normalized to `ErrConnectionClosed`; every
other error propagates verbatim. -/
def handleEncodeError (enc : Encoder) (e : Err) : Encoder × Err :=
  if e = .eof ∨ e = .closedPipe then ({ enc with closed := true }, .connectionClosed)
  else (enc, e)

/-- One `e.WriteField(...)` call inside `Encode`/`SetRetry`, with its error
routed through `handleEncodeError` as in the source. -/
def encodeField (enc : Encoder) (field value : Bytes) : Encoder × Option Err :=
  match WriteField field value with
  | .err e =>
    match handleEncodeError enc e with
    | (enc2, e2) => (enc2, some e2)
  | .ok bs => ({ enc with out := enc.out ++ bs }, none)

/-- `Encoder.Encode(event)`: rejected with `ErrEncoderClosed` when the
encoder is closed; otherwise the `id` record (the literal `"id:\n"` under
`ResetID`, else the `id` field when non-empty), then `retry` and `event`
when non-empty, then always `data`, each aborting on error, and finally
`Flush`. The sink is infallible in this model, so errors come only from
UTF-8 validation. -/
def Encode (enc : Encoder) (ev : Event) : Encoder × Option Err :=
  if enc.closed then (enc, some .encoderClosed)
  else
    let (s1, r1) :=
      if ev.resetID then
        ({ enc with out := enc.out ++ [105, 100, 58, 10] }, (none : Option Err))
      else if ev.id ≠ [] then encodeField enc idField ev.id
      else (enc, none)
    match r1 with
    | some e => (s1, some e)
    | none =>
      let (s2, r2) :=
        if ev.retry ≠ [] then encodeField s1 retryField ev.retry else (s1, none)
      match r2 with
      | some e => (s2, some e)
      | none =>
        let (s3, r3) :=
          if ev.typ ≠ [] then encodeField s2 eventField ev.typ else (s2, none)
        match r3 with
        | some e => (s3, some e)
        | none =>
          let (s4, r4) := encodeField s3 dataField ev.data
          match r4 with
          | some e => (s4, some e)
          | none => (Flush s4, none)

/-- Decimal byte string of an integer, Go's `fmt.Sprintf("%d", ms)`. -/
def decimalBytes (ms : Int) : Bytes :=
  (toString ms).toUTF8.toList.map (·.toNat)

/-- `Encoder.SetRetry(milliseconds)`: rejected when closed; otherwise write
a standalone `retry` field and flush. -/
def SetRetry (enc : Encoder) (ms : Int) : Encoder × Option Err :=
  if enc.closed then (enc, some .encoderClosed)
  else
    match encodeField enc retryField (decimalBytes ms) with
    | (s1, some e) => (s1, some e)
    | (s1, none) => (Flush s1, none)

/-- `Encoder.Close`: returns `nil` immediately when already closed;
otherwise latches `closed` and closes the underlying writer. -/
def Close (enc : Encoder) : Encoder × Option Err :=
  if enc.closed then (enc, none)
  else ({ enc with closed := true, wClosed := true }, none)

/-- `Encoder.IsClosed`. -/
def IsClosed (enc : Encoder) : Bool := enc.closed

end Encoder

/-- Outcome of one HTTP connection attempt (`tempClient.Do(es.request)`):
either a transport-level failure, or a response with its status code and
whether `mime.ParseMediaType(Content-Type)` yields `text/event-stream`. -/
inductive ConnResult where
  | netError
  | response (status : Nat) (ctEventStream : Bool)
deriving DecidableEq, Repr

/-- An invocation of one of the client's observer callbacks
(`OnConnect`, `OnDisconnect(url, err)`, `OnError(url, err)`; the `url`
argument is the constant request URL and is omitted). -/
inductive Notif where
  | onConnect
  | onDisconnect (e : Err)
  | onError (e : Err)
deriving DecidableEq, Repr

/-- The lock-protected state of an `EventSource`. Live transports are
identified by the running count `conns` of connections established so far;
`r`/`dec` hold the current transport/decoder identity (in the source both
are set and cleared together), and `closedConns` records every transport
identity on which `Close()` was called, in order. -/
structure ESState where
  r : Option Nat
  dec : Option Nat
  lastEventID : Bytes
  conns : Nat
  closedConns : List Nat
deriving DecidableEq, Repr

namespace ES

/-- `EventSource.connect()`: returns `true` at once when a transport is
live; fails when the request context is cancelled; otherwise classifies the
attempt's outcome — transport error or status `>= 500` notify `OnError` and
fail, status `204` notifies `OnDisconnect` with `ErrClosed` and fails, any
other non-`200` status or a non-`text/event-stream` content type notifies
`OnError` and fails, and a `200` `text/event-stream` response installs a
fresh transport and decoder and notifies `OnConnect`. No branch latches any
terminal state: a failed attempt leaves the state unchanged. -/
def connect (s : ESState) (ctxCancelled : Bool) (res : ConnResult) :
    ESState × List Notif × Bool :=
  if s.r.isSome then (s, [], true)
  else if ctxCancelled then (s, [], false)
  else
    match res with
    | .netError => (s, [.onError .connAttemptFailed], false)
    | .response status ct =>
      if 500 ≤ status then (s, [.onError (.temporaryServerError status)], false)
      else if status = 204 then (s, [.onDisconnect .closed], false)
      else if status ≠ 200 then (s, [.onError (.unrecoverableStatus status)], false)
      else if ¬ ct then (s, [.onError .invalidContentType], false)
      else ({ s with r := some s.conns, dec := some s.conns, conns := s.conns + 1 },
            [.onConnect], true)

/-- `EventSource.Close()`: closes the current transport when present and
discards transport and decoder. Nothing else in the state changes — in
particular no terminal error is latched. -/
def Close (s : ESState) : ESState :=
  { s with
    r := none
    dec := none
    closedConns := match s.r with
      | some i => s.closedConns ++ [i]
      | none => s.closedConns }

/-- The oracle inputs one `Read()` call may consume: the request context's
error, the outcome of a connection attempt (used only when one is made) and
the result of `dec.Decode(&e)` (used only when decoding is reached). -/
structure ReadIn where
  ctxErr : Option Err
  connRes : ConnResult
  decodeRes : Res Event
deriving DecidableEq, Repr

/-- Whether a decode error is a `net.Error` with `Timeout() == true`
(`errors.As(err, &netErr) && netErr.Timeout()` in the source). -/
def isNetTimeout : Err → Bool
  | .netTimeout => true
  | _ => false

/-- `EventSource.Read()`: fail on a cancelled context; ensure a connection
(else `ErrConnectionFailed`); decode one event. `ErrInvalidEncoding` is
returned with the connection left intact; any other decode error (timeouts
wrapped as `"read timeout: %w"`) closes and discards the transport and
decoder and fires `OnDisconnect`. A decoded event with empty payload yields
`ErrEmptyLine`; otherwise `lastEventID` is cleared under `ResetID`, set
from a non-empty `ID`, left alone otherwise, and the event is returned. -/
def Read (s : ESState) (inp : ReadIn) : ESState × List Notif × Res Event :=
  match inp.ctxErr with
  | some e => (s, [], .err e)
  | none =>
    match connect s false inp.connRes with
    | (s1, ns1, okConn) =>
      if ¬ okConn then (s1, ns1, .err .connectionFailed)
      else if s1.dec.isNone then (s1, ns1, .err .connectionFailed)
      else
        match inp.decodeRes with
        | .err e =>
          if e = .invalidEncoding then (s1, ns1, .err e)
          else
            let e2 := if isNetTimeout e then Err.readTimeout e else e
            ({ s1 with
                r := none
                dec := none
                closedConns := match s1.r with
                  | some i => s1.closedConns ++ [i]
                  | none => s1.closedConns },
             ns1 ++ [.onDisconnect e2], .err e2)
        | .ok e =>
          if e.data = [] then (s1, ns1, .err .emptyLine)
          else
            let s2 :=
              if e.resetID then { s1 with lastEventID := [] }
              else if e.id ≠ [] then { s1 with lastEventID := e.id }
              else s1
            (s2, ns1, .ok e)

end ES

/-- An invocation of a registry callback (`onConnect` / `onDisconnect`,
each receiving the affected handle). The source fires them only when set;
the model records every such invocation point. -/
inductive RegNotif where
  | regConnect (h : Nat)
  | regDisconnect (h : Nat)
deriving DecidableEq, Repr

/-- The `ConnectionManager`'s map from encoder handles to connection info,
as an association list (handles and infos are opaque identities). -/
structure ConnectionManager where
  encoders : List (Nat × Nat)
deriving DecidableEq, Repr

/-- Modelled from the spec: `IsConnectionError` is called by `Broadcast`
but its definition is not among the provided source files. The spec's
error taxonomy (§7) groups `ConnectionFailed`/`ConnectionClosed` as the
connection-closed classification that `Broadcast` aggregates (§4.4). -/
def IsConnectionError (e : Err) : Bool :=
  e = .connectionClosed || e = .connectionFailed

namespace CM

/-- `ConnectionManager.Register`: map insert (an existing entry for the
handle is replaced), then the connect callback fires. -/
def Register (cm : ConnectionManager) (h info : Nat) :
    ConnectionManager × List RegNotif :=
  ({ encoders := cm.encoders.filter (fun p => p.1 ≠ h) ++ [(h, info)] },
   [.regConnect h])

/-- `ConnectionManager.Unregister`: removes the handle when present and
fires the disconnect callback only in that case. -/
def Unregister (cm : ConnectionManager) (h : Nat) :
    ConnectionManager × List RegNotif :=
  if cm.encoders.any (fun p => p.1 = h) then
    ({ encoders := cm.encoders.filter (fun p => p.1 ≠ h) }, [.regDisconnect h])
  else (cm, [])

/-- `ConnectionManager.Count`: the number of registered connections. -/
def Count (cm : ConnectionManager) : Nat := cm.encoders.length

/-- `ConnectionManager.List`: the registered connections' infos
(named `listInfos` here because `List` would shadow the Lean list type). -/
def listInfos (cm : ConnectionManager) : List Nat := cm.encoders.map Prod.snd

/-- The write loop of `Broadcast` over the snapshotted handles: a failing
`encoder.Encode(event)` (outcome given by the oracle `w`) unregisters the
handle, and a connection-classified failure overwrites the running last
error. -/
def broadcastLoop (w : Nat → Option Err) :
    List Nat → ConnectionManager → Option Err →
    ConnectionManager × List RegNotif × Option Err
  | [], reg, lastErr => (reg, [], lastErr)
  | h :: rest, reg, lastErr =>
    match w h with
    | none => broadcastLoop w rest reg lastErr
    | some e =>
      match Unregister reg h with
      | (reg2, ns2) =>
        match broadcastLoop w rest reg2
            (if IsConnectionError e then some e else lastErr) with
        | (reg3, ns3, res) => (reg3, ns2 ++ ns3, res)

/-- `ConnectionManager.Broadcast(event)`: snapshot the handles under the
read lock, release it, then run the write loop. The event's bytes go to
each snapshotted encoder; each write's outcome is the oracle `w`. -/
def Broadcast (cm : ConnectionManager) (_ev : Event) (w : Nat → Option Err) :
    ConnectionManager × List RegNotif × Option Err :=
  broadcastLoop w (cm.encoders.map Prod.fst) cm none

/-- `ConnectionManager.CloseAll`: closes every encoder and clears the map. -/
def CloseAll (_cm : ConnectionManager) : ConnectionManager :=
  { encoders := [] }

end CM

/-- The `WriteField` loop as the claim C6 sequences it: strip one trailing
carriage return first, then skip an empty (post-strip) line unless it is the
first or last segment. The source performs the skip test before stripping;
the two differ on interior segments consisting of a lone carriage return. -/
def writeFieldClaimOrder (field : Bytes) : Nat → Nat → List Bytes → Bytes
  | _, _, [] => []
  | i, n, line :: rest =>
    (if stripCR line = [] ∧ 0 < i ∧ i < n - 1 then []
     else writeFieldRecord field (stripCR line)) ++
      writeFieldClaimOrder field (i + 1) n rest

/-- `WriteField` as claim C6 states it, built on `writeFieldClaimOrder`. -/
def WriteFieldClaim (field value : Bytes) : Res Bytes :=
  if ¬ (utf8Valid field ∧ utf8Valid value) then .err .invalidEncoding
  else .ok (writeFieldClaimOrder field 0 (splitOnNL value).length (splitOnNL value))

/-- The segments of a split value that `WriteField` keeps: every segment
except the empty ones that are neither first nor last (the emptiness test
looks at the raw segment, before carriage-return stripping). -/
def keptSegments (lines : List Bytes) : List Bytes :=
  ((lines.enum.filter fun p =>
      decide (¬ (p.2 = [] ∧ 0 < p.1 ∧ p.1 < lines.length - 1))).map Prod.snd)

/-- `WriteField` as amended: split on line breaks, keep a segment unless it
is an interior empty one, then strip one trailing carriage return from each
kept segment and write one record per kept segment. -/
def amendedWriteField (field value : Bytes) : Res Bytes :=
  if utf8Valid field ∧ utf8Valid value then
    .ok (((keptSegments (splitOnNL value)).map
      fun l => writeFieldRecord field (stripCR l)).flatten)
  else .err .invalidEncoding

/-- The bytes a successful `WriteField` emits (empty on the error case);
used to state the record order of `Encode`. -/
def fieldBytes (field value : Bytes) : Bytes :=
  match WriteField field value with
  | .ok bs => bs
  | .err _ => []

/-- The connection-classified failures among the write outcomes for a list
of handles, in handle order; `Broadcast` returns the last of these. -/
def connErrsOf (w : Nat → Option Err) (hs : List Nat) : List Err :=
  hs.filterMap fun h =>
    match w h with
    | some e => if IsConnectionError e then some e else none
    | none => none

/-! ### Helper lemmas -/

/-- The `WriteField` loop written as a filter over indexed segments. -/
lemma writeFieldGo_enumFrom (field : Bytes) (n : Nat) :
    ∀ (lines : List Bytes) (i : Nat),
      writeFieldGo field i n lines =
        (((lines.enumFrom i).filter fun p =>
            decide (¬ (p.2 = [] ∧ 0 < p.1 ∧ p.1 < n - 1))).map
          fun p => writeFieldRecord field (stripCR p.2)).flatten := by
  intro lines
  induction lines with
  | nil => intro i; simp [writeFieldGo]
  | cons line rest ih =>
    intro i
    by_cases h : line = [] ∧ 0 < i ∧ i < n - 1
    · have hd : decide (¬ ((i, line).2 = [] ∧ 0 < (i, line).1 ∧ (i, line).1 < n - 1))
          = false := by simp [h]
      simp only [writeFieldGo, if_pos h, List.enumFrom, List.filter_cons, hd,
        Bool.false_eq_true, if_false, ih, List.nil_append]
    · have hd : decide (¬ ((i, line).2 = [] ∧ 0 < (i, line).1 ∧ (i, line).1 < n - 1))
          = true := by simp [h]
      simp only [writeFieldGo, if_neg h, List.enumFrom, List.filter_cons, hd,
        if_true, List.map_cons, List.flatten_cons, ih]

/-- The `WriteField` loop on segments that are all non-empty, followed by
one final empty segment: every segment is written, the final empty one as
the bare `field` record. -/
lemma writeFieldGo_nonempty_segs (field : Bytes) :
    ∀ (segs : List Bytes) (i n : Nat), (∀ sg ∈ segs, sg ≠ []) →
      n = i + segs.length + 1 →
      writeFieldGo field i n (segs ++ [[]]) =
        ((segs.map fun sg => writeFieldRecord field (stripCR sg)).flatten)
          ++ (field ++ [10]) := by
  intro segs
  induction segs with
  | nil =>
    intro i n _ hn
    subst hn
    simp [writeFieldGo, writeFieldRecord, stripCR]
  | cons sg rest ih =>
    intro i n hne hn
    have hsg : sg ≠ [] := hne sg (List.mem_cons_self sg rest)
    have hrest : ∀ x ∈ rest, x ≠ [] := fun x hx => hne x (List.mem_cons_of_mem sg hx)
    have hn2 : n = (i + 1) + rest.length + 1 := by
      rw [hn, List.length_cons]; omega
    have hcond : ¬ (sg = [] ∧ 0 < i ∧ i < n - 1) := fun hc => hsg hc.1
    rw [List.cons_append]
    simp only [writeFieldGo, if_neg hcond]
    rw [ih (i + 1) n hrest hn2]
    simp [List.append_assoc]

/-! ### Claim theorems -/

/-- C5 counterexample: the claim says `Data = "a\n"` encodes to exactly one
record `data: a\n` followed by the blank terminator, the synthetic trailing
empty segment being omitted. Encoding that event actually writes an extra
empty `data\n` record before the terminator: the source's skip test
exempts the last segment, so the trailing empty segment is kept. -/
theorem encode_trailing_newline_extra_record :
    Encoder.Encode { closed := false, out := [], flushes := 0, wClosed := false }
        { typ := [], id := [], retry := [], data := [97, 10], resetID := false } =
      ({ closed := false,
         out := [100, 97, 116, 97, 58, 32, 97, 10] ++ [100, 97, 116, 97, 10] ++ [10],
         flushes := 1, wClosed := false }, none) ∧
    ([100, 97, 116, 97, 58, 32, 97, 10] ++ [100, 97, 116, 97, 10] ++ [10] : Bytes) ≠
      [100, 97, 116, 97, 58, 32, 97, 10] ++ [10] := by
  decide

/-- C5 as amended: for a UTF-8-valid payload that ends in a line break and
has no interior empty line, `WriteField` emits one record per source line
and then keeps the synthetic trailing empty segment as one empty record
`field\n` (it is the last segment, which the skip exempts), rather than
omitting it. -/
theorem writeField_trailing_break_keeps_empty_record (field value : Bytes)
    (segs : List Bytes)
    (hf : utf8Valid field = true) (hv : utf8Valid value = true)
    (hsplit : splitOnNL value = segs ++ [[]])
    (hne : ∀ sg ∈ segs, sg ≠ []) :
    WriteField field value =
      .ok (((segs.map fun sg => writeFieldRecord field (stripCR sg)).flatten)
        ++ (field ++ [10])) := by
  unfold WriteField
  rw [if_neg (by simp [hf, hv])]
  rw [hsplit, writeFieldGo_nonempty_segs field segs 0 _ hne (by simp)]

/-- C5 amended witness: `WriteField "data" "a\n"` writes the record
`data: a\n` and then the empty record `data\n`. -/
theorem writeField_trailing_break_keeps_empty_record_witness :
    WriteField dataField [97, 10] =
      .ok ((([[97]].map fun sg => writeFieldRecord dataField (stripCR sg)).flatten)
        ++ (dataField ++ [10])) :=
  writeField_trailing_break_keeps_empty_record dataField [97, 10] [[97]]
    (by decide) (by decide) (by decide) (by decide)

/-- C6 counterexample: the claim sequences stripping before the skip test.
On `value = "a\n\r\nb"` the interior segment is a lone carriage return:
the source keeps it (it is non-empty before stripping) and writes an empty
`data\n` record, while the claim's order would strip it to empty and skip
it, so `WriteField` differs from the claim's reading at this input. -/
theorem writeField_skip_before_strip_concrete :
    WriteField dataField [97, 10, 13, 10, 98] =
      .ok ([100, 97, 116, 97, 58, 32, 97, 10] ++ [100, 97, 116, 97, 10] ++
        [100, 97, 116, 97, 58, 32, 98, 10]) ∧
    WriteFieldClaim dataField [97, 10, 13, 10, 98] =
      .ok ([100, 97, 116, 97, 58, 32, 97, 10] ++ [100, 97, 116, 97, 58, 32, 98, 10]) ∧
    WriteField dataField [97, 10, 13, 10, 98] ≠
      WriteFieldClaim dataField [97, 10, 13, 10, 98] := by
  decide

/-- C6 as amended: `WriteField` fails with `InvalidEncoding` exactly when
the field or the value is not valid UTF-8; otherwise it splits the value on
line breaks, keeps every segment except the empty ones (empty before
carriage-return stripping) that are neither first nor last, and writes one
record per kept segment after stripping one trailing carriage return:
`field\n` when the stripped line is empty, else `field: line\n`. -/
theorem writeField_characterization (field value : Bytes) :
    WriteField field value = amendedWriteField field value := by
  unfold WriteField amendedWriteField
  by_cases h : utf8Valid field ∧ utf8Valid value
  · rw [if_neg (not_not_intro h), if_pos h]
    unfold keptSegments
    rw [writeFieldGo_enumFrom]
    simp only [List.map_map]
    rfl
  · rw [if_pos h, if_neg h]

/-- A `WriteField` call on UTF-8-valid arguments appends its records to the
writer and succeeds. -/
lemma encodeField_ok (enc : Encoder) (field value : Bytes)
    (hf : utf8Valid field = true) (hv : utf8Valid value = true) :
    Encoder.encodeField enc field value =
      ({ enc with out := enc.out ++ fieldBytes field value }, none) := by
  unfold Encoder.encodeField fieldBytes WriteField
  rw [if_neg (by simp [hf, hv])]

/-- The four field names are valid UTF-8. -/
lemma utf8Valid_fieldNames :
    utf8Valid idField = true ∧ utf8Valid retryField = true ∧
    utf8Valid eventField = true ∧ utf8Valid dataField = true := by
  decide

/-- C7: on an open encoder and UTF-8-valid fields, `Encode` appends, in
this order: the literal `id:\n` when `ResetID` is set, else the `id` field
records when `ID` is non-empty; then the `retry` records when `Retry` is
non-empty; then the `event` records when `Type` is non-empty; then always
the `data` records; and finally the blank line, with exactly one flush of
the sink. -/
theorem encode_record_order (enc : Encoder) (ev : Event)
    (hc : enc.closed = false)
    (hid : utf8Valid ev.id = true) (hre : utf8Valid ev.retry = true)
    (hty : utf8Valid ev.typ = true) (hda : utf8Valid ev.data = true) :
    Encoder.Encode enc ev =
      ({ enc with
          out := enc.out ++
            ((if ev.resetID then [105, 100, 58, 10]
              else if ev.id ≠ [] then fieldBytes idField ev.id else []) ++
             ((if ev.retry ≠ [] then fieldBytes retryField ev.retry else []) ++
              ((if ev.typ ≠ [] then fieldBytes eventField ev.typ else []) ++
               (fieldBytes dataField ev.data ++ [10]))))
          flushes := enc.flushes + 1 }, none) := by
  obtain ⟨v1, v2, v3, v4⟩ := utf8Valid_fieldNames
  cases hR : ev.resetID <;>
    by_cases h1 : ev.id = [] <;> by_cases h2 : ev.retry = [] <;>
    by_cases h3 : ev.typ = [] <;>
    simp [Encoder.Encode, Encoder.Flush, hc, hR, h1, h2, h3,
      encodeField_ok, v1, v2, v3, v4, hid, hre, hty, hda, List.append_assoc]

/-- C7 witness: encoding a concrete event with every field present. -/
theorem encode_record_order_witness :
    Encoder.Encode { closed := false, out := [], flushes := 0, wClosed := false }
        { typ := [101], id := [120], retry := [53], data := [104], resetID := false } =
      ({ closed := false,
         out := [] ++
           ((if (false : Bool) then [105, 100, 58, 10]
             else if ([120] : Bytes) ≠ [] then fieldBytes idField [120] else []) ++
            ((if ([53] : Bytes) ≠ [] then fieldBytes retryField [53] else []) ++
             ((if ([101] : Bytes) ≠ [] then fieldBytes eventField [101] else []) ++
              (fieldBytes dataField [104] ++ [10]))))
         flushes := 0 + 1, wClosed := false }, none) :=
  encode_record_order { closed := false, out := [], flushes := 0, wClosed := false }
    { typ := [101], id := [120], retry := [53], data := [104], resetID := false }
    rfl (by decide) (by decide) (by decide) (by decide)

/-- C10: once the `closed` flag is set, `Encode` and `SetRetry` return
`ErrEncoderClosed` with the encoder — including the bytes written and the
flush count — unchanged, and a repeated `Close` returns `nil` without
closing the underlying writer again; the flag is set by `Close` (always)
and by `handleEncodeError` when a write fails with `io.EOF` or
`io.ErrClosedPipe`, which it normalizes to `ErrConnectionClosed`. -/
theorem encoder_closed_rejects (enc : Encoder) (ev : Event) (ms : Int)
    (h : enc.closed = true) :
    Encoder.Encode enc ev = (enc, some .encoderClosed) ∧
    Encoder.SetRetry enc ms = (enc, some .encoderClosed) ∧
    Encoder.Close enc = (enc, none) ∧
    (∀ enc2 : Encoder, (Encoder.Close enc2).1.closed = true) ∧
    (∀ enc2 : Encoder,
      Encoder.handleEncodeError enc2 .eof =
        ({ enc2 with closed := true }, .connectionClosed)) ∧
    (∀ enc2 : Encoder,
      Encoder.handleEncodeError enc2 .closedPipe =
        ({ enc2 with closed := true }, .connectionClosed)) := by
  refine ⟨?_, ?_, ?_, ?_, ?_, ?_⟩
  · simp [Encoder.Encode, h]
  · simp [Encoder.SetRetry, h]
  · simp [Encoder.Close, h]
  · intro enc2
    by_cases h2 : enc2.closed = true <;> simp [Encoder.Close, h2]
  · intro enc2; simp [Encoder.handleEncodeError]
  · intro enc2; simp [Encoder.handleEncodeError]

/-- C10 witness: a concrete closed encoder rejects `Encode` and `SetRetry`
and tolerates a repeated `Close`. -/
theorem encoder_closed_rejects_witness :
    Encoder.Encode { closed := true, out := [], flushes := 0, wClosed := true }
        { typ := [], id := [], retry := [], data := [], resetID := false } =
      ({ closed := true, out := [], flushes := 0, wClosed := true },
       some .encoderClosed) ∧
    Encoder.SetRetry { closed := true, out := [], flushes := 0, wClosed := true } 5 =
      ({ closed := true, out := [], flushes := 0, wClosed := true },
       some .encoderClosed) ∧
    Encoder.Close { closed := true, out := [], flushes := 0, wClosed := true } =
      ({ closed := true, out := [], flushes := 0, wClosed := true }, none) ∧
    (∀ enc2 : Encoder, (Encoder.Close enc2).1.closed = true) ∧
    (∀ enc2 : Encoder,
      Encoder.handleEncodeError enc2 .eof =
        ({ enc2 with closed := true }, .connectionClosed)) ∧
    (∀ enc2 : Encoder,
      Encoder.handleEncodeError enc2 .closedPipe =
        ({ enc2 with closed := true }, .connectionClosed)) :=
  encoder_closed_rejects { closed := true, out := [], flushes := 0, wClosed := true }
    { typ := [], id := [], retry := [], data := [], resetID := false } 5 rfl

/-- C1 counterexample: a fresh client whose first connection attempt is
answered with status `204` fires the disconnect observer with `ErrClosed`
and fails that `Read` — but its state is completely unchanged, no terminal
condition is latched, and the very next `Read` performs a further
connection attempt that succeeds and returns an event. This refutes "no
further connection attempts are ever made by that client instance" (and
there is no retry-interval wait anywhere: retries happen exactly when the
caller calls `Read` again). -/
theorem status204_attempt_then_reconnect :
    ES.Read { r := none, dec := none, lastEventID := [], conns := 0, closedConns := [] }
        { ctxErr := none, connRes := .response 204 true,
          decodeRes := .ok { typ := [], id := [], retry := [], data := [104], resetID := false } } =
      ({ r := none, dec := none, lastEventID := [], conns := 0, closedConns := [] },
       [.onDisconnect .closed], .err .connectionFailed) ∧
    ES.Read { r := none, dec := none, lastEventID := [], conns := 0, closedConns := [] }
        { ctxErr := none, connRes := .response 200 true,
          decodeRes := .ok { typ := [], id := [], retry := [], data := [104, 105], resetID := false } } =
      ({ r := some 0, dec := some 0, lastEventID := [], conns := 1, closedConns := [] },
       [.onConnect],
       .ok { typ := [], id := [], retry := [], data := [104, 105], resetID := false }) := by
  decide

/-- C1 as amended: for every HTTP response obtained by a connection attempt
of a disconnected client — any status at or above `500` notifies the error
observer; `204` notifies the disconnect observer with `ErrClosed`; any
other non-`200` status, or a `200` whose content type is not
`text/event-stream`, notifies the error observer; in all those cases the
attempt fails with the client state unchanged, so nothing prevents (or
schedules) a later attempt: no terminal state is latched and no
retry-interval wait exists — the caller's next `Read` retries immediately.
A `200` `text/event-stream` response installs a fresh transport and
decoder and notifies the connect observer. -/
theorem connect_status_classification (s : ESState) (status : Nat) (ct : Bool)
    (h : s.r = none) :
    (500 ≤ status →
      ES.connect s false (.response status ct) =
        (s, [.onError (.temporaryServerError status)], false)) ∧
    (status = 204 →
      ES.connect s false (.response status ct) =
        (s, [.onDisconnect .closed], false)) ∧
    (status < 500 → status ≠ 204 → status ≠ 200 →
      ES.connect s false (.response status ct) =
        (s, [.onError (.unrecoverableStatus status)], false)) ∧
    (status = 200 → ct = false →
      ES.connect s false (.response status ct) =
        (s, [.onError .invalidContentType], false)) ∧
    (status = 200 → ct = true →
      ES.connect s false (.response status ct) =
        ({ s with r := some s.conns, dec := some s.conns, conns := s.conns + 1 },
         [.onConnect], true)) := by
  refine ⟨?_, ?_, ?_, ?_, ?_⟩
  · intro h5
    simp [ES.connect, h, h5]
  · intro h204
    subst h204
    simp [ES.connect, h]
  · intro hlt hne204 hne200
    simp [ES.connect, h, Nat.not_le.mpr hlt, hne204, hne200]
  · intro h200 hct
    subst h200 hct
    simp [ES.connect, h]
  · intro h200 hct
    subst h200 hct
    simp [ES.connect, h]

/-- C1 amended witness: the classification at a concrete disconnected
state and a concrete `204` response. -/
theorem connect_status_classification_witness :
    (500 ≤ 204 →
      ES.connect { r := none, dec := none, lastEventID := [], conns := 0, closedConns := [] }
          false (.response 204 true) =
        ({ r := none, dec := none, lastEventID := [], conns := 0, closedConns := [] },
         [.onError (.temporaryServerError 204)], false)) ∧
    (204 = 204 →
      ES.connect { r := none, dec := none, lastEventID := [], conns := 0, closedConns := [] }
          false (.response 204 true) =
        ({ r := none, dec := none, lastEventID := [], conns := 0, closedConns := [] },
         [.onDisconnect .closed], false)) ∧
    (204 < 500 → 204 ≠ 204 → 204 ≠ 200 →
      ES.connect { r := none, dec := none, lastEventID := [], conns := 0, closedConns := [] }
          false (.response 204 true) =
        ({ r := none, dec := none, lastEventID := [], conns := 0, closedConns := [] },
         [.onError (.unrecoverableStatus 204)], false)) ∧
    (204 = 200 → true = false →
      ES.connect { r := none, dec := none, lastEventID := [], conns := 0, closedConns := [] }
          false (.response 204 true) =
        ({ r := none, dec := none, lastEventID := [], conns := 0, closedConns := [] },
         [.onError .invalidContentType], false)) ∧
    (204 = 200 → true = true →
      ES.connect { r := none, dec := none, lastEventID := [], conns := 0, closedConns := [] }
          false (.response 204 true) =
        ({ r := some 0, dec := some 0, lastEventID := [], conns := 1, closedConns := [] },
         [.onConnect], true)) :=
  connect_status_classification
    { r := none, dec := none, lastEventID := [], conns := 0, closedConns := [] }
    204 true rfl

/-- C2 at its failing input: `Close()` on a connected client closes the
current transport (identity `0` is recorded closed) and is idempotent, but
it latches nothing — the next `Read` on the closed client performs a fresh
connection attempt, installs a new transport and returns an event, against
`Close`'s own documentation ("stops the source permanently") and the
claim's sticky terminal error. -/
theorem close_then_read_reconnects :
    ES.Close { r := some 0, dec := some 0, lastEventID := [120], conns := 1, closedConns := [] } =
      { r := none, dec := none, lastEventID := [120], conns := 1, closedConns := [0] } ∧
    ES.Close (ES.Close { r := some 0, dec := some 0, lastEventID := [120], conns := 1, closedConns := [] }) =
      { r := none, dec := none, lastEventID := [120], conns := 1, closedConns := [0] } ∧
    ES.Read { r := none, dec := none, lastEventID := [120], conns := 1, closedConns := [0] }
        { ctxErr := none, connRes := .response 200 true,
          decodeRes := .ok { typ := [], id := [], retry := [], data := [104], resetID := false } } =
      ({ r := some 1, dec := some 1, lastEventID := [120], conns := 2, closedConns := [0] },
       [.onConnect],
       .ok { typ := [], id := [], retry := [], data := [104], resetID := false }) := by
  decide

/-- C3 counterexample: a connected client reads an event whose `Retry`
field is the parseable base-10 integer `"5000"` with a non-empty payload.
The client state after the `Read` equals the state before it in every
component — nothing was updated to 5000 milliseconds — and it is the same
state produced when the identical event carries no `Retry` field at all
(the `EventSource` struct has no retry-interval field to update). -/
theorem read_retry_field_ignored_concrete :
    ES.Read { r := some 0, dec := some 0, lastEventID := [], conns := 1, closedConns := [] }
        { ctxErr := none, connRes := .response 200 true,
          decodeRes := .ok { typ := [], id := [], retry := [53, 48, 48, 48], data := [104], resetID := false } } =
      ({ r := some 0, dec := some 0, lastEventID := [], conns := 1, closedConns := [] },
       [],
       .ok { typ := [], id := [], retry := [53, 48, 48, 48], data := [104], resetID := false }) ∧
    ES.Read { r := some 0, dec := some 0, lastEventID := [], conns := 1, closedConns := [] }
        { ctxErr := none, connRes := .response 200 true,
          decodeRes := .ok { typ := [], id := [], retry := [], data := [104], resetID := false } } =
      ({ r := some 0, dec := some 0, lastEventID := [], conns := 1, closedConns := [] },
       [],
       .ok { typ := [], id := [], retry := [], data := [104], resetID := false }) := by
  decide

/-- C3 as amended: `Read` never maintains or updates a retry interval —
the client's resulting state and observer notifications are independent of
the decoded event's `Retry` field, whatever its value; the field is only
passed through to the caller inside the returned event. -/
theorem read_state_independent_of_retry (s : ESState) (ctx : Option Err)
    (cr : ConnResult) (e : Event) (r1 r2 : Bytes) :
    (ES.Read s { ctxErr := ctx, connRes := cr, decodeRes := .ok { e with retry := r1 } }).1 =
      (ES.Read s { ctxErr := ctx, connRes := cr, decodeRes := .ok { e with retry := r2 } }).1 ∧
    (ES.Read s { ctxErr := ctx, connRes := cr, decodeRes := .ok { e with retry := r1 } }).2.1 =
      (ES.Read s { ctxErr := ctx, connRes := cr, decodeRes := .ok { e with retry := r2 } }).2.1 := by
  cases ctx with
  | some e0 => exact ⟨rfl, rfl⟩
  | none =>
    simp only [ES.Read]
    rcases hc : ES.connect s false cr with ⟨s1, ns1, okc⟩
    cases okc <;> cases hdec : s1.dec <;>
      by_cases hd : e.data = [] <;> cases hr : e.resetID <;>
      by_cases hi : e.id = [] <;>
      simp [hc, hdec, hd, hr, hi]

/-- C4: with a live transport `i` and decoder `j`, a `Read` whose decode
fails with `ErrInvalidEncoding` returns that error with the connection —
transport, decoder, whole state — untouched and no observer fired, so the
next `Read` continues on the same stream; any other decode error closes
the transport, discards transport and decoder, fires the disconnect
observer and returns the error (net timeouts wrapped as a read-timeout
error). -/
theorem read_decode_error_policy (s : ESState) (i j : Nat) (er : Err)
    (cr : ConnResult) (hr : s.r = some i) (hd : s.dec = some j) :
    ES.Read s { ctxErr := none, connRes := cr, decodeRes := .err er } =
      if er = .invalidEncoding then (s, [], .err er)
      else
        ({ s with r := none, dec := none, closedConns := s.closedConns ++ [i] },
         [.onDisconnect (if ES.isNetTimeout er then Err.readTimeout er else er)],
         .err (if ES.isNetTimeout er then Err.readTimeout er else er)) := by
  by_cases he : er = .invalidEncoding <;>
    simp [ES.Read, ES.connect, hr, hd, he]

/-- C4 witness: a concrete connected client and a net-timeout decode
error tear the connection down; instantiating the same theorem at
`ErrInvalidEncoding` would leave it untouched. -/
theorem read_decode_error_policy_witness :
    ES.Read { r := some 0, dec := some 0, lastEventID := [120], conns := 1, closedConns := [] }
        { ctxErr := none, connRes := .netError, decodeRes := .err .netTimeout } =
      if Err.netTimeout = .invalidEncoding then
        ({ r := some 0, dec := some 0, lastEventID := [120], conns := 1, closedConns := [] },
         [], .err .netTimeout)
      else
        ({ r := none, dec := none, lastEventID := [120], conns := 1, closedConns := [0] },
         [.onDisconnect (if ES.isNetTimeout .netTimeout then Err.readTimeout .netTimeout else .netTimeout)],
         .err (if ES.isNetTimeout .netTimeout then Err.readTimeout .netTimeout else .netTimeout)) :=
  read_decode_error_policy
    { r := some 0, dec := some 0, lastEventID := [120], conns := 1, closedConns := [] }
    0 0 .netTimeout .netError rfl rfl

/-- C9: with a live transport and decoder, a successfully decoded event
with empty payload makes `Read` return `ErrEmptyLine` with the state —
`lastEventID` included — unchanged and the event withheld from the caller;
a non-empty event is returned, with `lastEventID` cleared when `ResetID`
is set, set from a non-empty `ID`, and left unchanged otherwise. -/
theorem read_success_policy (s : ESState) (i j : Nat) (cr : ConnResult)
    (e : Event) (hr : s.r = some i) (hd : s.dec = some j) :
    ES.Read s { ctxErr := none, connRes := cr, decodeRes := .ok e } =
      if e.data = [] then (s, [], .err .emptyLine)
      else ((if e.resetID then { s with lastEventID := [] }
             else if e.id ≠ [] then { s with lastEventID := e.id } else s),
            [], .ok e) := by
  by_cases hdat : e.data = [] <;>
    simp [ES.Read, ES.connect, hr, hd, hdat]

/-- C9 witness: a concrete connected client reads an event with a
non-empty payload and a fresh `ID`, which becomes the stored cursor. -/
theorem read_success_policy_witness :
    ES.Read { r := some 0, dec := some 0, lastEventID := [120], conns := 1, closedConns := [] }
        { ctxErr := none, connRes := .netError,
          decodeRes := .ok { typ := [], id := [52, 50], retry := [], data := [104], resetID := false } } =
      if ([104] : Bytes) = [] then
        ({ r := some 0, dec := some 0, lastEventID := [120], conns := 1, closedConns := [] },
         [], .err .emptyLine)
      else
        ((if (false : Bool) then
            { ESState.mk (some 0) (some 0) [120] 1 [] with lastEventID := [] }
          else if ([52, 50] : Bytes) ≠ [] then
            { ESState.mk (some 0) (some 0) [120] 1 [] with lastEventID := [52, 50] }
          else ESState.mk (some 0) (some 0) [120] 1 []),
         [], .ok { typ := [], id := [52, 50], retry := [], data := [104], resetID := false }) :=
  read_success_policy
    { r := some 0, dec := some 0, lastEventID := [120], conns := 1, closedConns := [] }
    0 0 .netError
    { typ := [], id := [52, 50], retry := [], data := [104], resetID := false } rfl rfl

/-- The last element of a cons in terms of the tail's last element. -/
lemma getLast?_cons_eq {α : Type} (a : α) (l : List α) :
    (a :: l).getLast? =
      match l.getLast? with
      | some x => some x
      | none => some a := by
  cases l with
  | nil => simp
  | cons b t =>
    rw [List.getLast?_cons_cons]
    cases hbt : (b :: t).getLast? with
    | none => simp [List.getLast?_eq_none_iff] at hbt
    | some x => simp

/-- The write loop of `Broadcast`: the surviving registry entries are those
whose handle is not a failing one among the snapshotted handles, and the
returned error is the last connection-classified failure, falling back to
the accumulator. -/
lemma broadcastLoop_spec (w : Nat → Option Err) :
    ∀ (hs : List Nat) (reg : ConnectionManager) (acc : Option Err),
      (CM.broadcastLoop w hs reg acc).1.encoders =
        reg.encoders.filter (fun p => decide (¬ (p.1 ∈ hs ∧ (w p.1).isSome))) ∧
      (CM.broadcastLoop w hs reg acc).2.2 =
        (match (connErrsOf w hs).getLast? with
         | some x => some x
         | none => acc) := by
  intro hs
  induction hs with
  | nil =>
    intro reg acc
    refine ⟨?_, ?_⟩
    · simp [CM.broadcastLoop]
    · simp [CM.broadcastLoop, connErrsOf]
  | cons h rest ih =>
    intro reg acc
    rcases hw : w h with _ | e
    · have hconn : connErrsOf w (h :: rest) = connErrsOf w rest := by
        simp [connErrsOf, hw]
      refine ⟨?_, ?_⟩
      · simp only [CM.broadcastLoop, hw]
        rw [(ih reg acc).1]
        refine List.filter_congr ?_
        intro p _
        by_cases hp : p.1 = h
        · simp [hp, hw]
        · simp [hp]
      · simp only [CM.broadcastLoop, hw]
        rw [(ih reg acc).2, hconn]
    · by_cases hpres : (reg.encoders.any fun p => decide (p.1 = h)) = true
      · have hU : CM.Unregister reg h =
            ({ encoders := reg.encoders.filter fun p => decide (p.1 ≠ h) },
             [.regDisconnect h]) := by
          simp [CM.Unregister, hpres]
        rcases hL : CM.broadcastLoop w rest
            { encoders := reg.encoders.filter fun p => decide (p.1 ≠ h) }
            (if IsConnectionError e then some e else acc) with ⟨reg3, ns3, res⟩
        have hIH := ih { encoders := reg.encoders.filter fun p => decide (p.1 ≠ h) }
          (if IsConnectionError e then some e else acc)
        rw [hL] at hIH
        refine ⟨?_, ?_⟩
        · simp only [CM.broadcastLoop, hw, hU, hL]
          rw [hIH.1, List.filter_filter]
          refine List.filter_congr ?_
          intro p _
          by_cases hph : p.1 = h
          · simp [hph, hw]
          · simp [hph]
        · simp only [CM.broadcastLoop, hw, hU, hL]
          refine (hIH.2).trans ?_
          by_cases hce : IsConnectionError e = true
          · have hcons : connErrsOf w (h :: rest) = e :: connErrsOf w rest := by
              simp [connErrsOf, hw, hce]
            rw [hcons, getLast?_cons_eq]
            cases (connErrsOf w rest).getLast? <;> simp [hce]
          · have hcons : connErrsOf w (h :: rest) = connErrsOf w rest := by
              simp [connErrsOf, hw, hce]
            rw [hcons]
            simp [hce]
      · have hU : CM.Unregister reg h = (reg, []) := by
          simp only [CM.Unregister]
          rw [if_neg]
          simpa using hpres
        have hnp : ∀ p ∈ reg.encoders, ¬ p.1 = h := by
          have h' : ∀ (x : Nat), (h, x) ∉ reg.encoders := by simpa using hpres
          rintro ⟨a, b⟩ hp hph
          subst hph
          exact h' b hp
        rcases hL : CM.broadcastLoop w rest reg
            (if IsConnectionError e then some e else acc) with ⟨reg3, ns3, res⟩
        have hIH := ih reg (if IsConnectionError e then some e else acc)
        rw [hL] at hIH
        refine ⟨?_, ?_⟩
        · simp only [CM.broadcastLoop, hw, hU, hL]
          rw [hIH.1]
          refine List.filter_congr ?_
          intro p hp
          simp [hnp p hp]
        · simp only [CM.broadcastLoop, hw, hU, hL]
          refine (hIH.2).trans ?_
          by_cases hce : IsConnectionError e = true
          · have hcons : connErrsOf w (h :: rest) = e :: connErrsOf w rest := by
              simp [connErrsOf, hw, hce]
            rw [hcons, getLast?_cons_eq]
            cases (connErrsOf w rest).getLast? <;> simp [hce]
          · have hcons : connErrsOf w (h :: rest) = connErrsOf w rest := by
              simp [connErrsOf, hw, hce]
            rw [hcons]
            simp [hce]

/-- C8: `Broadcast` writes to exactly the handles snapshotted at call time;
every handle whose write fails is unregistered — the surviving entries are
precisely those whose write succeeded, a subsequent `Count` reports their
number and `List` returns exactly their infos — and the returned error is
the most recent connection-classified failure in write order, or `nil`
when no write failed with a connection-closed classification. -/
theorem broadcast_spec (cm : ConnectionManager) (ev : Event) (w : Nat → Option Err) :
    (CM.Broadcast cm ev w).1.encoders =
      cm.encoders.filter (fun p => (w p.1).isNone) ∧
    CM.Count (CM.Broadcast cm ev w).1 =
      (cm.encoders.filter (fun p => (w p.1).isNone)).length ∧
    CM.listInfos (CM.Broadcast cm ev w).1 =
      (cm.encoders.filter (fun p => (w p.1).isNone)).map Prod.snd ∧
    (CM.Broadcast cm ev w).2.2 =
      (connErrsOf w (cm.encoders.map Prod.fst)).getLast? := by
  have h := broadcastLoop_spec w (cm.encoders.map Prod.fst) cm none
  have he : (CM.Broadcast cm ev w).1.encoders =
      cm.encoders.filter fun p => (w p.1).isNone := by
    unfold CM.Broadcast
    rw [h.1]
    refine List.filter_congr ?_
    intro p hp
    have hmem : p.1 ∈ cm.encoders.map Prod.fst := List.mem_map_of_mem Prod.fst hp
    cases hwp : w p.1 <;> simp [hmem, hwp]
  refine ⟨he, ?_, ?_, ?_⟩
  · simp [CM.Count, he]
  · simp [CM.listInfos, he]
  · unfold CM.Broadcast
    rw [h.2]
    cases (connErrsOf w (cm.encoders.map Prod.fst)).getLast? <;> simp

end EventSourceGo
